import Mathlib

/-!
# Verification of the CDC change-application core

Shallow embedding of the two data-plane programs of the repository:

* `src/scripts/kafka-consumer.py` — the Kafka→Postgres consumer. Its
  `process_message` inspects the decoded payload's `op` discriminant and
  issues at most one SQL statement against the destination `orders` table
  (an `INSERT ... ON CONFLICT DO UPDATE` for `c`/`r`, a plain `UPDATE` for
  `u`, a `DELETE` for `d`). Its `main` loop wraps every message in a
  catch-all `try/except` that logs and continues, and configures the Kafka
  consumer with `enable_auto_commit=True`.
* `src/flink-job/flink-init.py` — the Flink SQL job. Its `INSERT` statement
  selects `COALESCE(after.order_id, before.order_id)` and
  `COALESCE(after.user_id, before.user_id)` from the Kafka source table and
  writes them to the `orders_flink` sink (columns `order_id`, `user_id`
  only, primary key `order_id`), filtered by `op IN ('c','r','u')`.

Modelling decisions:

* A JSON projection (`before`/`after`) is a `Proj` with one `Option` field
  per wire field. `none` models the key being absent from the dict, so that
  subscripting it raises `KeyError`; the documented wire shape has non-null
  inner fields, so a present key always carries a value. Python dict
  truthiness (`if after:`) is nonemptiness, `Proj.truthy`.
* A message value is `Option Payload`: `none` models a tombstone/empty
  value (`if not value: return`).
* `process_message` returns `Except String (Option Mutation)`: `.error`
  models a Python exception escaping the function (a `KeyError` is raised
  while building the parameter tuple, before `cursor.execute` runs, so an
  erroring call never mutates the destination); `.ok none` models the
  function returning without issuing a statement.
* The destination `orders` table (primary key `order_id`) is a function
  `Int → Option Row`; the primary key guarantees at most one row per key,
  which the function representation enforces by construction.
-/

/-- One decoded JSON projection (the `before` or `after` object of a change
event). A field is `none` when the key is absent from the dict. -/
structure Proj where
  order_id : Option Int
  user_id : Option Int
  name : Option String
deriving DecidableEq

/-- Python dict truthiness: a dict is truthy iff it is nonempty. -/
def Proj.truthy (p : Proj) : Bool :=
  p.order_id.isSome || p.user_id.isSome || p.name.isSome

/-- One decoded change-event payload. `op` is `none` when the `op` key is
absent (`payload.get('op')` returns `None`). -/
structure Payload where
  before : Option Proj
  after : Option Proj
  op : Option String
deriving DecidableEq

/-- The non-key columns of one row of the destination `orders` table
(`order_id` is the primary key, held as the map key). -/
structure Row where
  user_id : Int
  name : String
deriving DecidableEq

/-- Destination `orders` table state: at most one row per `order_id`. -/
def DestState := Int → Option Row

/-- The single SQL statement `process_message` issues, if any:
`.upsert` is the `INSERT ... ON CONFLICT (order_id) DO UPDATE` of the
`c`/`r` branch, `.update` the plain `UPDATE ... WHERE order_id = ...` of
the `u` branch, `.delete` the `DELETE ... WHERE order_id = ...` of the
`d` branch. -/
inductive Mutation where
  | upsert (order_id user_id : Int) (name : String)
  | update (order_id user_id : Int) (name : String)
  | delete (order_id : Int)
deriving DecidableEq

/-- The `order_id` the statement's WHERE / conflict target names. -/
def Mutation.key : Mutation → Int
  | .upsert k _ _ => k
  | .update k _ _ => k
  | .delete k => k

/-- `process_message(message, cursor)` of `src/scripts/kafka-consumer.py`.
Field accesses are matched in Python's evaluation order (the parameter
tuples are built left to right, so the first absent key raises). -/
def process_message (value : Option Payload) : Except String (Option Mutation) :=
  match value with
  | none => .ok none
  | some payload =>
    if payload.op = some "c" ∨ payload.op = some "r" then
      match payload.after with
      | some a =>
        if a.truthy then
          match a.order_id, a.user_id, a.name with
          | some oid, some uid, some nm => .ok (some (.upsert oid uid nm))
          | none, _, _ => .error "KeyError: order_id"
          | some _, none, _ => .error "KeyError: user_id"
          | some _, some _, none => .error "KeyError: name"
        else .ok none
      | none => .ok none
    else if payload.op = some "u" then
      match payload.after with
      | some a =>
        if a.truthy then
          match a.user_id, a.name, a.order_id with
          | some uid, some nm, some oid => .ok (some (.update oid uid nm))
          | none, _, _ => .error "KeyError: user_id"
          | some _, none, _ => .error "KeyError: name"
          | some _, some _, none => .error "KeyError: order_id"
        else .ok none
      | none => .ok none
    else if payload.op = some "d" then
      match payload.before with
      | some b =>
        if b.truthy then
          match b.order_id with
          | some oid => .ok (some (.delete oid))
          | none => .error "KeyError: order_id"
        else .ok none
      | none => .ok none
    else .ok none

/-- Semantics of the three SQL statements against the destination table:
the upsert inserts or overwrites the row at its key, the plain update
rewrites the row at its key only when one exists (0 rows affected
otherwise), the delete removes the row at its key if present. -/
def applyMutation (m : Mutation) (s : DestState) : DestState :=
  match m with
  | .upsert k u n => fun k' => if k' = k then some ⟨u, n⟩ else s k'
  | .update k u n => fun k' => if k' = k then (s k').map (fun _ => ⟨u, n⟩) else s k'
  | .delete k => fun k' => if k' = k then none else s k'

/-- Effect of one consumed message on the destination: the statement runs
(with `autocommit = True`) when `process_message` issues one; an exception
escapes before any statement runs, so the state is unchanged. -/
def runMessage (value : Option Payload) (s : DestState) : DestState :=
  match process_message value with
  | .ok (some m) => applyMutation m s
  | _ => s

/-- The consumer's Kafka configuration sets `enable_auto_commit=True`
(line 111 of `src/scripts/kafka-consumer.py`): offsets are committed by
the client automatically, not gated on application success. -/
def enable_auto_commit : Bool := true

/-- The `for message in consumer` loop of `main`: each message is processed
inside `try/except Exception`; an exception is printed
(`"Error processing message: ..."`), the connection rolled back, and the
loop continues with the next message. Returns the final destination state
and the accumulated log lines. -/
def runLoop : List (Option Payload) → DestState → List String → DestState × List String
  | [], s, logs => (s, logs)
  | v :: rest, s, logs =>
    match process_message v with
    | .ok none => runLoop rest s logs
    | .ok (some m) => runLoop rest (applyMutation m s) logs
    | .error e => runLoop rest s (logs ++ ["Error processing message: " ++ e])

/-- The Flink job's `SELECT ... WHERE op IN ('c','r','u')`: the row the
streaming insert emits for one Kafka record, if any. Column values follow
SQL null semantics: a field access on a NULL `ROW` is NULL, and `COALESCE`
takes the first non-NULL argument. -/
def flinkEmit (p : Payload) : Option (Option Int × Option Int) :=
  if p.op = some "c" ∨ p.op = some "r" ∨ p.op = some "u" then
    some ((p.after.bind Proj.order_id).orElse (fun _ => p.before.bind Proj.order_id),
          (p.after.bind Proj.user_id).orElse (fun _ => p.before.bind Proj.user_id))
  else none

/-- The `orders_flink` sink table: `order_id` (primary key, not enforced,
so nullable in the model) maps to `user_id`. -/
def FlinkState := Option Int → Option (Option Int)

/-- Effect of one Kafka record on `orders_flink`: the JDBC sink with a
declared primary key upserts each emitted row; a record that emits no row
leaves the sink untouched. -/
def flinkApply (p : Payload) (s : FlinkState) : FlinkState :=
  match flinkEmit p with
  | none => s
  | some (k, u) => fun k' => if k' = k then some u else s k'

/-- `COALESCE(after.order_id, before.order_id)` — the key derivation the
Flink job uses and the spec prescribes for every operation kind. -/
def coalesceKey (p : Payload) : Option Int :=
  (p.after.bind Proj.order_id).orElse (fun _ => p.before.bind Proj.order_id)

/-- The key of the row a consumed message touches, if any: the key of the
one statement `process_message` issues. -/
def touchedKey (value : Option Payload) : Option Int :=
  match process_message value with
  | .ok (some m) => some m.key
  | _ => none

/-- An event whose required projection (per §4.2 of the design) is missing:
a `c`/`r`/`u` event whose `after` is absent, falsy, or lacking a field the
statement needs, or a `d` event whose `before` is absent, falsy, or lacking
`order_id`. -/
def requiredProjectionMissing (p : Payload) : Bool :=
  match p.op with
  | some o =>
    if o = "c" ∨ o = "r" ∨ o = "u" then
      match p.after with
      | none => true
      | some a => !a.truthy || a.order_id.isNone || a.user_id.isNone || a.name.isNone
    else if o = "d" then
      match p.before with
      | none => true
      | some b => !b.truthy || b.order_id.isNone
    else false
  | none => false

/-- Empty destination table. -/
def emptyDest : DestState := fun _ => none

/-! ## Helper lemmas -/

/-- Inversion: the three ways `process_message` can issue a statement, with
the facts about the payload each implies. -/
lemma process_ok_some_inv (p : Payload) (m : Mutation)
    (hm : process_message (some p) = .ok (some m)) :
    (∃ a oid uid nm, (p.op = some "c" ∨ p.op = some "r") ∧ p.after = some a ∧
       a.order_id = some oid ∧ a.user_id = some uid ∧ a.name = some nm ∧
       m = .upsert oid uid nm) ∨
    (∃ a oid uid nm, p.op = some "u" ∧ p.after = some a ∧
       a.order_id = some oid ∧ a.user_id = some uid ∧ a.name = some nm ∧
       m = .update oid uid nm) ∨
    (∃ b oid, p.op = some "d" ∧ p.before = some b ∧ b.order_id = some oid ∧
       m = .delete oid) := by
  unfold process_message at hm
  dsimp only at hm
  by_cases hc : p.op = some "c" ∨ p.op = some "r"
  · rw [if_pos hc] at hm
    cases ha : p.after with
    | none => rw [ha] at hm; exact absurd hm (by simp)
    | some a =>
      rw [ha] at hm
      dsimp only at hm
      by_cases ht : a.truthy = true
      · rw [if_pos ht] at hm
        cases ho : a.order_id with
        | none => rw [ho] at hm; simp at hm
        | some oid =>
          cases hu : a.user_id with
          | none => rw [ho, hu] at hm; simp at hm
          | some uid =>
            cases hn : a.name with
            | none => rw [ho, hu, hn] at hm; simp at hm
            | some nm =>
              rw [ho, hu, hn] at hm
              simp only [Except.ok.injEq, Option.some.injEq] at hm
              exact Or.inl ⟨a, oid, uid, nm, hc, rfl, ho, hu, hn, hm.symm⟩
      · rw [if_neg ht] at hm; simp at hm
  · rw [if_neg hc] at hm
    by_cases hu : p.op = some "u"
    · rw [if_pos hu] at hm
      cases ha : p.after with
      | none => rw [ha] at hm; simp at hm
      | some a =>
        rw [ha] at hm
        dsimp only at hm
        by_cases ht : a.truthy = true
        · rw [if_pos ht] at hm
          cases hui : a.user_id with
          | none => rw [hui] at hm; simp at hm
          | some uid =>
            cases hn : a.name with
            | none => rw [hui, hn] at hm; simp at hm
            | some nm =>
              cases ho : a.order_id with
              | none => rw [hui, hn, ho] at hm; simp at hm
              | some oid =>
                rw [hui, hn, ho] at hm
                simp only [Except.ok.injEq, Option.some.injEq] at hm
                exact Or.inr (Or.inl ⟨a, oid, uid, nm, hu, rfl, ho, hui, hn, hm.symm⟩)
        · rw [if_neg ht] at hm; simp at hm
    · rw [if_neg hu] at hm
      by_cases hd : p.op = some "d"
      · rw [if_pos hd] at hm
        cases hb : p.before with
        | none => rw [hb] at hm; simp at hm
        | some b =>
          rw [hb] at hm
          dsimp only at hm
          by_cases ht : b.truthy = true
          · rw [if_pos ht] at hm
            cases ho : b.order_id with
            | none => rw [ho] at hm; simp at hm
            | some oid =>
              rw [ho] at hm
              simp only [Except.ok.injEq, Option.some.injEq] at hm
              exact Or.inr (Or.inr ⟨b, oid, hd, rfl, ho, hm.symm⟩)
          · rw [if_neg ht] at hm; simp at hm
      · rw [if_neg hd] at hm; simp at hm

/-- Each of the three SQL statements is idempotent on the destination. -/
lemma applyMutation_idem (m : Mutation) (s : DestState) :
    applyMutation m (applyMutation m s) = applyMutation m s := by
  funext k'
  cases m with
  | upsert k u n =>
    simp only [applyMutation]
    by_cases h : k' = k <;> simp [h]
  | update k u n =>
    simp only [applyMutation]
    by_cases h : k' = k
    · simp only [if_pos h]
      cases s k' <;> rfl
    · simp only [if_neg h]
  | delete k =>
    simp only [applyMutation]
    by_cases h : k' = k <;> simp [h]

/-- A message that issues a statement has its required projection. -/
lemma process_ok_some_not_missing (p : Payload) (m : Mutation)
    (hm : process_message (some p) = .ok (some m)) :
    requiredProjectionMissing p = false := by
  rcases process_ok_some_inv p m hm with
    ⟨a, oid, uid, nm, hc, ha, ho, hu, hn, _⟩ | ⟨a, oid, uid, nm, hop, ha, ho, hu, hn, _⟩ |
    ⟨b, oid, hop, hb, ho, _⟩
  · rcases hc with h | h <;>
      simp [requiredProjectionMissing, h, ha, ho, hu, hn, Proj.truthy]
  · simp [requiredProjectionMissing, hop, ha, ho, hu, hn, Proj.truthy]
  · simp [requiredProjectionMissing, hop, hb, ho, Proj.truthy]

/-! ## Claims -/

/-- C1 counterexample: an Update event for `order_id = 1` (with `after`
present) applied to a destination with no row for key 1 is mapped to a
plain `UPDATE`, not an upsert, and afterwards no row for key 1 exists —
the claimed Update→Upsert mapping does not hold in the consumer. -/
theorem c1_counterexample :
    process_message (some ⟨none, some ⟨some 1, some 9, some "B"⟩, some "u"⟩) =
      .ok (some (.update 1 9 "B")) ∧
    runMessage (some ⟨none, some ⟨some 1, some 9, some "B"⟩, some "u"⟩) emptyDest 1 = none :=
  ⟨rfl, rfl⟩

/-- C1 (amended): an Update event whose `after` projection is present,
applied to a destination with no row for its key, is executed as a plain
zero-row `UPDATE`: no error is raised, but the destination is left
unchanged and no row for the key exists afterward. -/
theorem c1_update_on_absent_key (k u : Int) (n : String) (s : DestState)
    (hs : s k = none) :
    process_message (some ⟨none, some ⟨some k, some u, some n⟩, some "u"⟩) =
      .ok (some (.update k u n)) ∧
    runMessage (some ⟨none, some ⟨some k, some u, some n⟩, some "u"⟩) s = s := by
  have hp : process_message (some ⟨none, some ⟨some k, some u, some n⟩, some "u"⟩) =
      .ok (some (.update k u n)) := rfl
  refine ⟨hp, ?_⟩
  have happ : runMessage (some ⟨none, some ⟨some k, some u, some n⟩, some "u"⟩) s =
      applyMutation (.update k u n) s := by
    unfold runMessage
    rw [hp]
  rw [happ]
  funext k'
  simp only [applyMutation]
  by_cases h : k' = k
  · rw [if_pos h]
    subst h
    rw [hs]
    rfl
  · rw [if_neg h]

/-- C1 witness. -/
theorem c1_witness :
    process_message (some ⟨none, some ⟨some 3, some 9, some "B"⟩, some "u"⟩) =
      .ok (some (.update 3 9 "B")) ∧
    runMessage (some ⟨none, some ⟨some 3, some 9, some "B"⟩, some "u"⟩) emptyDest = emptyDest :=
  c1_update_on_absent_key 3 9 "B" emptyDest rfl

/-- C2 counterexample: the consumer enables Kafka auto-commit, and when the
first message's mutation fails (here with a `KeyError` while building the
statement parameters) the loop logs the error and silently continues,
applying the next message — it surfaces no fatal error and commits offsets
regardless of application success. -/
theorem c2_counterexample :
    enable_auto_commit = true ∧
    (runLoop [some ⟨none, some ⟨some 7, none, some "Ann"⟩, some "c"⟩,
              some ⟨none, some ⟨some 7, some 3, some "Ann"⟩, some "c"⟩] emptyDest []).2 =
      ["Error processing message: KeyError: user_id"] ∧
    (runLoop [some ⟨none, some ⟨some 7, none, some "Ann"⟩, some "c"⟩,
              some ⟨none, some ⟨some 7, some 3, some "Ann"⟩, some "c"⟩] emptyDest []).1 7 =
      some ⟨3, "Ann"⟩ :=
  ⟨rfl, rfl, rfl⟩

/-- C2 (amended): the consumer configures `enable_auto_commit=True`, so
offsets are committed by the Kafka client independently of mutation
success, and the consumption loop never halts on a failed mutation: it
applies every message of the stream in order, logging and rolling back on
errors, with no retry ceiling and no fatal-error escalation. -/
theorem c2_auto_commit_loop_continues :
    enable_auto_commit = true ∧
    ∀ (msgs : List (Option Payload)) (s : DestState) (logs : List String),
      (runLoop msgs s logs).1 = msgs.foldl (fun st v => runMessage v st) s := by
  refine ⟨rfl, ?_⟩
  intro msgs
  induction msgs with
  | nil => intro s logs; rfl
  | cons v rest ih =>
    intro s logs
    simp only [runLoop, List.foldl, runMessage]
    cases hm : process_message v with
    | error e => exact ih s (logs ++ ["Error processing message: " ++ e])
    | ok om =>
      cases om with
      | none => exact ih s logs
      | some m => exact ih (applyMutation m s) logs

/-- C3 counterexample: a Create event with fields
`order_id=7, user_id=3, name="Ann"` makes the consumer store the row
`(user_id=3, name="Ann")` under key 7 in its destination `orders` table —
`name` is present there, not dropped, so the destination row does not
contain only `order_id` and `user_id`. -/
theorem c3_counterexample :
    runMessage (some ⟨none, some ⟨some 7, some 3, some "Ann"⟩, some "c"⟩) emptyDest 7 =
      some ⟨3, "Ann"⟩ :=
  rfl

/-- C3 (amended): the projection narrowing happens only in the Flink
pipeline: for the Create event with fields
`order_id=7, user_id=3, name="Ann"` the Flink job emits to `orders_flink`
a row carrying only `order_id=7` and `user_id=3` (its sink schema has no
`name` column), while the kafka-consumer destination `orders` retains
`name` and stores the full row `(user_id=3, name="Ann")`. -/
theorem c3_projection_narrowing_flink_only :
    flinkEmit ⟨none, some ⟨some 7, some 3, some "Ann"⟩, some "c"⟩ = some (some 7, some 3) ∧
    runMessage (some ⟨none, some ⟨some 7, some 3, some "Ann"⟩, some "c"⟩) emptyDest 7 =
      some ⟨3, "Ann"⟩ :=
  ⟨rfl, rfl⟩

/-- C4: applying any change event twice in succession yields the same
destination state as applying it once, and a Delete event for an absent
key succeeds as a no-op (it issues a `DELETE` whose execution leaves the
state unchanged), never as an error. -/
theorem c4_idempotent_and_delete_noop (v : Option Payload) (s : DestState) :
    runMessage v (runMessage v s) = runMessage v s ∧
    (∀ (b : Proj) (k : Int), v = some ⟨some b, none, some "d"⟩ → b.order_id = some k →
      s k = none → process_message v = .ok (some (.delete k)) ∧ runMessage v s = s) := by
  constructor
  · cases hm : process_message v with
    | error e => unfold runMessage; rw [hm]
    | ok om =>
      cases om with
      | none => unfold runMessage; rw [hm]
      | some m =>
        unfold runMessage
        rw [hm]
        exact applyMutation_idem m s
  · rintro ⟨bo, bu, bn⟩ k hv hk hs
    subst hv
    have hk' : bo = some k := hk
    subst hk'
    have hp : process_message (some ⟨some ⟨some k, bu, bn⟩, none, some "d"⟩) =
        .ok (some (.delete k)) := rfl
    refine ⟨hp, ?_⟩
    have happ : runMessage (some ⟨some ⟨some k, bu, bn⟩, none, some "d"⟩) s =
        applyMutation (.delete k) s := by
      unfold runMessage
      rw [hp]
    rw [happ]
    funext k'
    simp only [applyMutation]
    by_cases h : k' = k
    · rw [if_pos h]
      subst h
      exact hs.symm
    · rw [if_neg h]

/-- C4 witness. -/
theorem c4_witness :
    runMessage (some ⟨some ⟨some 1, none, none⟩, none, some "d"⟩)
        (runMessage (some ⟨some ⟨some 1, none, none⟩, none, some "d"⟩) emptyDest) =
      runMessage (some ⟨some ⟨some 1, none, none⟩, none, some "d"⟩) emptyDest ∧
    (process_message (some ⟨some ⟨some 1, none, none⟩, none, some "d"⟩) =
        .ok (some (.delete 1)) ∧
      runMessage (some ⟨some ⟨some 1, none, none⟩, none, some "d"⟩) emptyDest = emptyDest) := by
  have h := c4_idempotent_and_delete_noop
    (some ⟨some ⟨some 1, none, none⟩, none, some "d"⟩) emptyDest
  exact ⟨h.1, h.2 ⟨some 1, none, none⟩ 1 rfl rfl rfl⟩

/-- C5: starting from any destination with no row for `order_id = 1`,
applying in order the Create `(1, 5, "A")`, the Update `(1, 9, "B")` and
the Delete for key 1 leaves the destination with no row for `order_id = 1`. -/
theorem c5_end_to_end (s : DestState) (hs : s 1 = none) :
    runMessage (some ⟨some ⟨some 1, none, none⟩, none, some "d"⟩)
      (runMessage (some ⟨none, some ⟨some 1, some 9, some "B"⟩, some "u"⟩)
        (runMessage (some ⟨none, some ⟨some 1, some 5, some "A"⟩, some "c"⟩) s)) 1 = none :=
  rfl

/-- C5 witness. -/
theorem c5_witness :
    runMessage (some ⟨some ⟨some 1, none, none⟩, none, some "d"⟩)
      (runMessage (some ⟨none, some ⟨some 1, some 9, some "B"⟩, some "u"⟩)
        (runMessage (some ⟨none, some ⟨some 1, some 5, some "A"⟩, some "c"⟩) emptyDest)) 1 =
      none :=
  c5_end_to_end emptyDest rfl

/-- C6 counterexample: a Delete event carrying both projections, with
`after.order_id = 2` and `before.order_id = 1`, makes the consumer delete
key 1 (the `before` key), while `COALESCE(after.key, before.key)` is 2 —
so the key used by the produced mutation is not the COALESCE of the two
keys for every operation kind. -/
theorem c6_counterexample :
    process_message
        (some ⟨some ⟨some 1, some 0, some "x"⟩, some ⟨some 2, some 0, some "x"⟩, some "d"⟩) =
      .ok (some (.delete 1)) ∧
    coalesceKey ⟨some ⟨some 1, some 0, some "x"⟩, some ⟨some 2, some 0, some "x"⟩, some "d"⟩ =
      some 2 ∧
    (Mutation.delete 1).key ≠ (2 : Int) :=
  ⟨rfl, rfl, by decide⟩

/-- C6 (amended): whenever `process_message` issues a statement, its key is
taken from the `after` projection for `c`/`r`/`u` events — which agrees
with `COALESCE(after.key, before.key)` since `after` is then present — and
from the `before` projection for Delete events, ignoring `after`. -/
theorem c6_key_derivation (p : Payload) (m : Mutation)
    (hm : process_message (some p) = .ok (some m)) :
    (p.op = some "d" → p.before.bind Proj.order_id = some m.key) ∧
    (p.op ≠ some "d" → p.after.bind Proj.order_id = some m.key ∧
      coalesceKey p = some m.key) := by
  rcases process_ok_some_inv p m hm with
    ⟨a, oid, uid, nm, hc, ha, ho, hu, hn, hme⟩ | ⟨a, oid, uid, nm, hop, ha, ho, hu, hn, hme⟩ |
    ⟨b, oid, hop, hb, ho, hme⟩
  · subst hme
    constructor
    · intro hd
      rcases hc with h | h <;> rw [h] at hd <;> simp at hd
    · intro _
      constructor
      · rw [ha]
        simpa [Mutation.key] using ho
      · simp [coalesceKey, ha, ho, Option.orElse, Mutation.key]
  · subst hme
    constructor
    · intro hd
      rw [hop] at hd
      simp at hd
    · intro _
      constructor
      · rw [ha]
        simpa [Mutation.key] using ho
      · simp [coalesceKey, ha, ho, Option.orElse, Mutation.key]
  · subst hme
    constructor
    · intro _
      rw [hb]
      simpa [Mutation.key] using ho
    · intro hd
      exact absurd hop hd

/-- C6 witness. -/
theorem c6_witness :
    coalesceKey ⟨none, some ⟨some 4, some 2, some "Kim"⟩, some "c"⟩ =
      some ((Mutation.upsert 4 2 "Kim").key) :=
  ((c6_key_derivation ⟨none, some ⟨some 4, some 2, some "Kim"⟩, some "c"⟩
      (.upsert 4 2 "Kim") rfl).2 (by decide)).2

/-- C7 counterexample: an Update event whose `after` projection is absent
is skipped without any logged diagnostic: processing the one-message
stream leaves both the destination and the log untouched, contradicting
the claimed logged diagnostic for a missing required projection. -/
theorem c7_counterexample :
    process_message (some ⟨none, none, some "u"⟩) = .ok none ∧
    runLoop [some ⟨none, none, some "u"⟩] emptyDest [] = (emptyDest, []) :=
  ⟨rfl, rfl⟩

/-- C7 (amended): a decodable event whose required projection is missing
(a `c`/`r`/`u` event without a usable `after`, a `d` event without a
usable `before`, including events with a present projection lacking a
required field) is skipped: the destination is unchanged, the offset still
advances (offsets are auto-committed), and the stream continues with the
subsequent messages — but an event whose whole projection is absent is
skipped silently; a diagnostic is logged only when a present projection
lacks a required field, via the loop's generic exception handler. -/
theorem c7_missing_projection_skips (p : Payload)
    (hp : requiredProjectionMissing p = true) (s : DestState)
    (rest : List (Option Payload)) (logs : List String) :
    runMessage (some p) s = s ∧
    ∃ logs2, runLoop (some p :: rest) s logs = runLoop rest s logs2 := by
  cases hm : process_message (some p) with
  | ok om =>
    cases om with
    | some m =>
      have hf := process_ok_some_not_missing p m hm
      rw [hf] at hp
      exact Bool.noConfusion hp
    | none =>
      constructor
      · unfold runMessage
        rw [hm]
      · exact ⟨logs, by simp only [runLoop, hm]⟩
  | error e =>
    constructor
    · unfold runMessage
      rw [hm]
    · exact ⟨logs ++ ["Error processing message: " ++ e], by simp only [runLoop, hm]⟩

/-- C7 witness. -/
theorem c7_witness :
    runMessage (some ⟨none, none, some "d"⟩) emptyDest = emptyDest ∧
    ∃ logs2, runLoop [some ⟨none, none, some "d"⟩] emptyDest [] = runLoop [] emptyDest logs2 :=
  c7_missing_projection_skips ⟨none, none, some "d"⟩ (by decide) emptyDest [] []

/-- C8: a tombstone message (no value), and any decodable payload whose
`op` is absent or not one of `c`/`r`/`u`/`d`, produces no destination
mutation and returns without error: `process_message` issues no statement
and the destination state is unchanged. -/
theorem c8_tombstone_or_unknown_op (v : Option Payload)
    (h : v = none ∨ ∃ p, v = some p ∧ (p.op = none ∨
      (p.op ≠ some "c" ∧ p.op ≠ some "r" ∧ p.op ≠ some "u" ∧ p.op ≠ some "d"))) :
    process_message v = .ok none ∧ ∀ s : DestState, runMessage v s = s := by
  rcases h with rfl | ⟨p, rfl, hop⟩
  · exact ⟨rfl, fun s => rfl⟩
  · have hc : ¬(p.op = some "c" ∨ p.op = some "r") := by
      rcases hop with hn | ⟨h1, h2, _, _⟩
      · rw [hn]; simp
      · rintro (hh | hh)
        · exact h1 hh
        · exact h2 hh
    have hu : p.op ≠ some "u" := by
      rcases hop with hn | ⟨_, _, h3, _⟩
      · rw [hn]; simp
      · exact h3
    have hd : p.op ≠ some "d" := by
      rcases hop with hn | ⟨_, _, _, h4⟩
      · rw [hn]; simp
      · exact h4
    have hpm : process_message (some p) = .ok none := by
      unfold process_message
      dsimp only
      rw [if_neg hc, if_neg hu, if_neg hd]
    refine ⟨hpm, fun s => ?_⟩
    unfold runMessage
    rw [hpm]

/-- C8 witness. -/
theorem c8_witness :
    process_message (some ⟨none, none, some "x"⟩) = .ok none ∧
    runMessage (some ⟨none, none, some "x"⟩) emptyDest = emptyDest := by
  have h := c8_tombstone_or_unknown_op (some ⟨none, none, some "x"⟩)
    (Or.inr ⟨⟨none, none, some "x"⟩, rfl, Or.inr (by decide)⟩)
  exact ⟨h.1, h.2 emptyDest⟩

/-- C9: the Flink pipeline forwards only `c`/`r`/`u` events to its sink;
a Delete event emits no row at all, leaves `orders_flink` unchanged, and —
since the only sink operation is an upsert — no event ever removes an
existing row from `orders_flink`: rows deleted at the source are retained
indefinitely. -/
theorem c9_flink_drops_deletes (p : Payload) (s : FlinkState) :
    (flinkEmit p ≠ none → p.op = some "c" ∨ p.op = some "r" ∨ p.op = some "u") ∧
    (p.op = some "d" → flinkApply p s = s) ∧
    (∀ k, s k ≠ none → flinkApply p s k ≠ none) := by
  refine ⟨?_, ?_, ?_⟩
  · intro h
    by_cases hc : p.op = some "c" ∨ p.op = some "r" ∨ p.op = some "u"
    · exact hc
    · exact absurd (by unfold flinkEmit; rw [if_neg hc]) h
  · intro hd
    have hc : ¬(p.op = some "c" ∨ p.op = some "r" ∨ p.op = some "u") := by
      rw [hd]
      decide
    unfold flinkApply flinkEmit
    rw [if_neg hc]
  · intro k hk
    unfold flinkApply
    cases he : flinkEmit p with
    | none => exact hk
    | some pr =>
      obtain ⟨k0, u⟩ := pr
      show (if k = k0 then some u else s k) ≠ none
      by_cases hkk : k = k0
      · rw [if_pos hkk]
        simp
      · rw [if_neg hkk]
        exact hk

/-- C9 witness. -/
theorem c9_witness :
    flinkApply ⟨some ⟨some 1, none, none⟩, none, some "d"⟩ (fun _ => some none) =
      (fun _ => some none) ∧
    flinkApply ⟨some ⟨some 1, none, none⟩, none, some "d"⟩ (fun _ => some none) (some 1) ≠
      none := by
  have h := c9_flink_drops_deletes ⟨some ⟨some 1, none, none⟩, none, some "d"⟩
    (fun _ => some none)
  exact ⟨h.2.1 rfl, h.2.2 (some 1) (by simp)⟩

/-- C10: every consumed message mutates at most the single destination row
identified by its mutation's key: any key different from the touched key
maps to the same row before and after the message is applied. -/
theorem c10_frame (v : Option Payload) (s : DestState) (k : Int)
    (h : touchedKey v ≠ some k) : runMessage v s k = s k := by
  unfold touchedKey at h
  unfold runMessage
  cases hm : process_message v with
  | error e => rfl
  | ok om =>
    cases om with
    | none => rfl
    | some m =>
      rw [hm] at h
      have hk : m.key ≠ k := fun he => h (congrArg some he)
      cases m with
      | upsert k0 u n =>
        show (if k = k0 then some (⟨u, n⟩ : Row) else s k) = s k
        exact if_neg (fun hh => hk hh.symm)
      | update k0 u n =>
        show (if k = k0 then (s k).map (fun _ => (⟨u, n⟩ : Row)) else s k) = s k
        exact if_neg (fun hh => hk hh.symm)
      | delete k0 =>
        show (if k = k0 then none else s k) = s k
        exact if_neg (fun hh => hk hh.symm)

/-- C10 witness. -/
theorem c10_witness :
    runMessage (some ⟨none, some ⟨some 7, some 3, some "Ann"⟩, some "c"⟩) emptyDest 99 =
      emptyDest 99 :=
  c10_frame (some ⟨none, some ⟨some 7, some 3, some "Ann"⟩, some "c"⟩) emptyDest 99 (by decide)
